import Mathlib

/-!
Shallow embedding of the consistency / capability / zome-call core of
holochain-rust, translated from:
  core/src/nucleus/actions/call_zome_function.rs
  core/src/consistency.rs
  core/src/network/state.rs
Types declared outside those files (in the core_types crate) are modelled
from the specification and marked as such.
-/

namespace Holochain

/-- Content addresses are strings (`Address` wraps a string in the source). -/
abbrev Address := String

/-- Modelled from the spec: errors produced when resolving a zome or a
function inside a DNA (`DnaError` lives in the core_types crate, not under
the analysed sources). -/
inductive DnaError where
  | zomeNotFound (name : String)
  | functionNotFound (name : String)
  deriving DecidableEq, Repr

/-- The variants of `HolochainError` used by the analysed sources. -/
inductive HolochainError where
  | errorGeneric (msg : String)
  | dnaMissing
  | dna (e : DnaError)
  | capabilityCheckFailed
  deriving DecidableEq, Repr

/-- Modelled from the spec: the grant kinds of `CapabilityType`
(core_types crate): `Public` (any caller), `Transferable` (any holder of
the token), `Assigned` (only listed addresses). -/
inductive CapabilityType where
  | Public
  | Transferable
  | Assigned
  deriving DecidableEq, Repr

/-- Modelled from the spec: `CapFunctions`, the map from zome name to
authorized function names, as an association list (first key occurrence
wins, as in a hash map). -/
abbrev CapFunctions := List (String × List String)

/-- Modelled from the spec: a capability grant binding a token to a grant
type, an authorized zome/function set, and (for Assigned grants) a list of
assignee addresses.  The accessors `functions()`, `token()`, `cap_type()`
and `assignees()` of the core_types `CapTokenGrant` become fields. -/
structure CapTokenGrant where
  functions : CapFunctions
  token : Address
  capType : CapabilityType
  assignees : Option (List Address)
  deriving DecidableEq, Repr

/-- Modelled from the spec: caller provenance, a claimed source address
plus a signature over the call data. -/
structure Provenance where
  source : Address
  signature : String
  deriving DecidableEq, Repr

/-- Modelled from the spec: a capability request carried by a call —
a token plus the caller's provenance. -/
structure CapabilityRequest where
  capToken : Address
  provenance : Provenance
  deriving DecidableEq, Repr

/-- The zome call descriptor (`ZomeFnCall`): zome name, capability
request, function name, JSON parameters (kept as their string form). -/
structure ZomeFnCall where
  zomeName : String
  cap : CapabilityRequest
  fnName : String
  parameters : String
  deriving DecidableEq, Repr

/-- `fn_call.cap_token()` reads the token of the embedded request. -/
def ZomeFnCall.capToken (c : ZomeFnCall) : Address := c.cap.capToken

/-- The signature-verification oracle (`Provenance::verify`, DPKI): takes
the provenance and the signed data, returns `HcResult<bool>`; `.error`
models the `Err` case that the caller `unwrap`s. -/
abbrev VerifyOracle := Provenance → String → Except String Bool

/-- The base64 alphabet used by `base64::encode`. -/
def b64Table : List Char :=
  "ABCDEFGHIJKLMNOPQRSTUVWXYZabcdefghijklmnopqrstuvwxyz0123456789+/".toList

/-- One base64 digit. -/
def b64Digit (n : Nat) : Char := b64Table.getD n '='

/-- Standard base64 of a byte sequence, with `=` padding, as produced by
`base64::encode`. -/
def base64EncodeBytes : List Nat → List Char
  | [] => []
  | [b1] =>
    [b64Digit (b1 / 4), b64Digit (b1 % 4 * 16), '=', '=']
  | [b1, b2] =>
    [b64Digit (b1 / 4), b64Digit (b1 % 4 * 16 + b2 / 16),
     b64Digit (b2 % 16 * 4), '=']
  | b1 :: b2 :: b3 :: rest =>
    b64Digit (b1 / 4) :: b64Digit (b1 % 4 * 16 + b2 / 16) ::
    b64Digit (b2 % 16 * 4 + b3 / 64) :: b64Digit (b3 % 64) ::
    base64EncodeBytes rest

/-- `encode_call_data_for_signing(function, parameters)`:
`base64::encode(format!("{}:{}", function, parameters))` over the UTF-8
bytes of the formatted string. -/
def encodeCallDataForSigning (function : String) (parameters : String) : String :=
  String.mk (base64EncodeBytes
    (((function ++ ":" ++ parameters).toUTF8.toList).map (fun b => b.toNat)))

/-- `verify_call_sig(provenance, function, parameters)`: verifies the
provenance signature over the encoded call data.  The source `unwrap`s the
oracle's `HcResult`; `none` models that panic. -/
def verifyCallSig (oracle : VerifyOracle) (provenance : Provenance)
    (function : String) (parameters : String) : Option Bool :=
  match oracle provenance (encodeCallDataForSigning function parameters) with
  | .ok b => some b
  | .error _ => none

/-- `verify_grant(context, grant, fn_call)` (call_zome_function.rs:237):
checks zome entry, function membership, token equality, call signature,
then per-kind assignee logic.  `none` models a panic (oracle `Err`
unwrapped inside `verify_call_sig`, or `grant.assignees().unwrap()` on an
Assigned grant without assignees). -/
def verifyGrant (oracle : VerifyOracle) (grant : CapTokenGrant)
    (fnCall : ZomeFnCall) : Option Bool :=
  match grant.functions.lookup fnCall.zomeName with
  | none => some false
  | some zomeGrants =>
    if ¬ zomeGrants.contains fnCall.fnName then some false
    else if grant.token ≠ fnCall.capToken then some false
    else
      match verifyCallSig oracle fnCall.cap.provenance fnCall.fnName
          fnCall.parameters with
      | none => none
      | some false => some false
      | some true =>
        match grant.capType with
        | .Public => some true
        | .Transferable => some true
        | .Assigned =>
          match grant.assignees with
          | none => none
          | some assignees =>
            some (assignees.contains fnCall.cap.provenance.source)

/-- Modelled from the spec: agent identity, reduced to its public key
string (the parts the analysed sources read). -/
abbrev AgentId := String

/-- Modelled from the spec: link payload carried by LinkAdd entries,
kept opaque. -/
abbrev LinkData := String

/-- The chain entry variants the analysed sources distinguish
(`Entry` lives in core_types; variants modelled from the spec and the
match arms of consistency.rs / call_zome_function.rs). -/
inductive Entry where
  | agentId (a : AgentId)
  | app (typeName : String) (value : String)
  | deletion (value : String)
  | linkAdd (l : LinkData)
  | linkRemove (value : String)
  | capTokenGrant (g : CapTokenGrant)
  | other (typeName : String) (value : String)
  deriving DecidableEq, Repr

/-- Modelled from the spec: `entry.entry_type()`, the type tag used by the
publishability check; app entries carry their app type name, system
entries a fixed tag. -/
def Entry.entryType : Entry → String
  | .agentId _ => "%agent_id"
  | .app t _ => t
  | .deletion _ => "%deletion"
  | .linkAdd _ => "%link_add"
  | .linkRemove _ => "%link_remove"
  | .capTokenGrant _ => "%cap_token_grant"
  | .other t _ => t

/-- Modelled from the spec: `entry.address()`, the content address of an
entry.  The real hash is opaque; an injective tagged encoding of the
content stands in for it. -/
def Entry.address : Entry → Address
  | .agentId a => "agent:" ++ a
  | .app t v => "app:" ++ t ++ ":" ++ v
  | .deletion v => "del:" ++ v
  | .linkAdd l => "linkadd:" ++ l
  | .linkRemove v => "linkrm:" ++ v
  | .capTokenGrant g => "grant:" ++ g.token
  | .other t v => "other:" ++ t ++ ":" ++ v

/-- Modelled from the spec: a zome, carrying its wasm code (opaque). -/
structure Zome where
  code : String
  fns : List String
  deriving DecidableEq, Repr

/-- Modelled from the spec: a DNA, with its name and named zomes. -/
structure Dna where
  name : String
  zomes : List (String × Zome)
  deriving DecidableEq, Repr

/-- Modelled from the spec: `dna.get_zome(name)`, missing-zome error when
the name resolves to no zome. -/
def Dna.getZome (d : Dna) (zomeName : String) : Except DnaError Zome :=
  match d.zomes.lookup zomeName with
  | some z => .ok z
  | none => .error (.zomeNotFound zomeName)

/-- Modelled from the spec:
`dna.get_function_with_zome_name(zome, fn)` — missing-zome, then
missing-function error when the function is not declared in the zome. -/
def Dna.getFunctionWithZomeName (d : Dna) (zomeName fnName : String) :
    Except DnaError Unit :=
  match d.zomes.lookup zomeName with
  | none => .error (.zomeNotFound zomeName)
  | some z =>
    if z.fns.contains fnName then .ok () else .error (.functionNotFound fnName)

/-- The slice of the instance State the analysed sources read: the
nucleus DNA and the per-call results table
(`state.nucleus().zome_call_result(call)`). -/
structure CoreState where
  dna : Option Dna
  zomeCallResult : ZomeFnCall → Option (Except HolochainError String)

/-- The slice of `Context` the analysed sources read: the optional state
snapshot, the agent's public signing key, the agent-chain lookup
(`get_entry_from_agent_chain`, an `HcResult<Option<Entry>>`), the
publishability configuration consulted by `can_publish` (modelled from the
spec), and the observed action-channel error of
`context.action_channel_error(..)`. -/
structure Context where
  state : Option CoreState
  agentPubSignKey : String
  chainLookup : Address → Except String (Option Entry)
  canPublish : String → Bool
  actionChannelError : Option HolochainError

/-- `context.get_dna()`: the DNA held in the state snapshot, when any. -/
def Context.getDna (ctx : Context) : Option Dna :=
  ctx.state.bind (fun s => s.dna)

/-- `is_token_the_agent(context, request)`
(call_zome_function.rs:172): the request token equals the agent's
public signing key. -/
def isTokenTheAgent (ctx : Context) (request : CapabilityRequest) : Bool :=
  ctx.agentPubSignKey == request.capToken

/-- `get_grant(context, address)` (call_zome_function.rs:176): chain
lookup; an `Err` or a missing entry or a non-grant entry all yield
`None`. -/
def getGrant (ctx : Context) (address : Address) : Option CapTokenGrant :=
  match ctx.chainLookup address with
  | .ok (some (.capTokenGrant g)) => some g
  | _ => none

/-- `check_capability(context, fn_call)` (call_zome_function.rs:185):
no grant at the token address is a `false` verification outcome;
otherwise defer to `verify_grant`.  `none` models a panic inside
`verify_grant`. -/
def checkCapability (oracle : VerifyOracle) (ctx : Context)
    (fnCall : ZomeFnCall) : Option Bool :=
  match getGrant ctx fnCall.capToken with
  | none => some false
  | some grant => verifyGrant oracle grant fnCall

/-- `validate_call(context, fn_call)` (call_zome_function.rs:135):
resolve DNA, zome and function, then accept when `check_capability` holds
or the self-call bypass (`is_token_the_agent && verify_call_sig`) holds,
otherwise fail with the capability-check error.  The outer `Option` models
a panic escaping from the signature oracle; `||` and `&&` short-circuit as
in the source. -/
def validateCall (oracle : VerifyOracle) (ctx : Context)
    (fnCall : ZomeFnCall) : Option (Except HolochainError (String × String)) :=
  match ctx.state with
  | none => some (.error (.errorGeneric "Context not initialized"))
  | some state =>
    match state.dna with
    | none => some (.error .dnaMissing)
    | some dna =>
      match dna.getZome fnCall.zomeName with
      | .error e => some (.error (.dna e))
      | .ok zome =>
        match dna.getFunctionWithZomeName fnCall.zomeName fnCall.fnName with
        | .error e => some (.error (.dna e))
        | .ok _ =>
          match checkCapability oracle ctx fnCall with
          | none => none
          | some true => some (.ok (dna.name, zome.code))
          | some false =>
            if isTokenTheAgent ctx fnCall.cap then
              match verifyCallSig oracle fnCall.cap.provenance fnCall.fnName
                  fnCall.parameters with
              | none => none
              | some true => some (.ok (dna.name, zome.code))
              | some false => some (.error .capabilityCheckFailed)
            else some (.error .capabilityCheckFailed)

/-- The one action kind `call_zome_function` dispatches before spawning
the worker. -/
inductive DispatchedAction where
  | signalZomeFunctionCall (call : ZomeFnCall)
  deriving DecidableEq, Repr

/-- The synchronous prefix of `call_zome_function`
(call_zome_function.rs:68-120): validation, then the
`SignalZomeFunctionCall` dispatch and the worker spawn.  Returns the
validation outcome, the actions dispatched so far, and whether a worker
thread was spawned; a validation error returns before any dispatch. -/
def callZomeFunctionStart (oracle : VerifyOracle) (ctx : Context)
    (zomeCall : ZomeFnCall) :
    Option (Except HolochainError Unit) × List DispatchedAction × Bool :=
  match validateCall oracle ctx zomeCall with
  | none => (none, [], false)
  | some (.error e) => (some (.error e), [], false)
  | some (.ok _) =>
    (some (.ok ()), [.signalZomeFunctionCall zomeCall], true)

/-- `CallResultFuture::poll` (call_zome_function.rs:299-323): channel
error first, then the state snapshot; `some` is `Poll::Ready`, `none` is
`Poll::Pending`. -/
def pollCallResult (ctx : Context) (zomeCall : ZomeFnCall) :
    Option (Except HolochainError String) :=
  match ctx.actionChannelError with
  | some err => some (.error err)
  | none =>
    match ctx.state with
    | some state => state.zomeCallResult zomeCall
    | none => some (.error (.errorGeneric "State not initialized"))

/-- The fields of `NetworkState` (network/state.rs) that `initialized`
reads: the network handle (the mutex-guarded option), the DNA address and
the agent id. -/
structure NetworkState where
  network : Option Unit
  dnaAddress : Option Address
  agentId : Option String
  deriving DecidableEq, Repr

/-- `NetworkState::initialized` (network/state.rs:79-86): ok exactly when
handle, DNA address and agent id are all set; a pure read of `&self`. -/
def NetworkState.initialized (s : NetworkState) : Except HolochainError Unit :=
  if s.network.isSome && s.dnaAddress.isSome && s.agentId.isSome then
    .ok ()
  else
    .error (.errorGeneric "Network not initialized")

/-- `ConsistencyGroup` (consistency.rs:80): which node population must
observe a pending effect. -/
inductive ConsistencyGroup where
  | Source
  | Validators
  deriving DecidableEq, Repr

/-- `ConsistencyEvent` (consistency.rs:57): causes and effects tracked by
the consistency model. -/
inductive ConsistencyEvent where
  | publish (a : Address)
  | addPendingValidation (a : Address)
  | signalZomeFunctionCall (id : Nat)
  | hold (a : Address)
  | updateEntry (old : Address) (new : Address)
  | removeEntry (old : Address) (new : Address)
  | addLink (l : LinkData)
  | removeLink (e : Entry)
  | removePendingValidation (a : Address)
  | returnZomeFunctionResult (id : Nat)
  deriving DecidableEq, Repr

/-- `PendingConsistency` (consistency.rs:74): a predicted follow-up event
with its consistency group. -/
structure PendingConsistency where
  event : ConsistencyEvent
  group : ConsistencyGroup
  deriving DecidableEq, Repr

/-- `ConsistencySignal<ConsistencyEvent>` (consistency.rs:11): an observed
headline event plus predicted pending events. -/
structure ConsistencySignalE where
  event : ConsistencyEvent
  pending : List PendingConsistency
  deriving DecidableEq, Repr

/-- `ConsistencySignal::new_terminal` (consistency.rs:17). -/
def ConsistencySignalE.newTerminal (event : ConsistencyEvent) :
    ConsistencySignalE :=
  { event := event, pending := [] }

/-- `ConsistencySignal::new_pending` (consistency.rs:24): every pending
event is tagged with the one given group. -/
def ConsistencySignalE.newPending (event : ConsistencyEvent)
    (group : ConsistencyGroup) (pendingEvents : List ConsistencyEvent) :
    ConsistencySignalE :=
  { event := event,
    pending := pendingEvents.map (fun e => { event := e, group := group }) }

/-- The `Action` variants consumed by `ConsistencyModel::process_action`
(the `Action` enum lives in core/src/action.rs, outside the analysed
sources; the shape of each consumed variant is modelled from its use in
consistency.rs).  `Commit` carries the entry and its optional crud-link;
`Hold` and `AddPendingValidation` carry the entry of their
entry-with-header; the zome-call pair carries the call's unique id. -/
inductive Action where
  | commit (entry : Entry) (crudLink : Option Address)
  | publish (a : Address)
  | hold (entry : Entry)
  | updateEntry (old : Address) (new : Address)
  | removeEntry (old : Address) (new : Address)
  | addLink (l : LinkData)
  | removeLink (e : Entry)
  | addPendingValidation (entry : Entry)
  | removePendingValidation (a : Address)
  | signalZomeFunctionCall (id : Nat)
  | returnZomeFunctionResult (id : Nat)
  | otherKind
  deriving DecidableEq, Repr

/-- The commit cache: a map from address to cached signal, as an
association list kept duplicate-free by insertion. -/
abbrev CommitCache := List (Address × ConsistencySignalE)

/-- `HashMap::insert`: set the key's value, overwriting any previous
binding. -/
def cacheInsert (a : Address) (s : ConsistencySignalE) (c : CommitCache) :
    CommitCache :=
  (a, s) :: c.filter (fun p => !(p.1 == a))

/-- `HashMap::get` as used through `remove`'s return value: the binding
for the key, when any. -/
def cacheLookup (a : Address) (c : CommitCache) : Option ConsistencySignalE :=
  c.lookup a

/-- `HashMap::remove`: drop the key's binding. -/
def cacheDelete (a : Address) (c : CommitCache) : CommitCache :=
  c.filter (fun p => !(p.1 == a))

/-- `ConsistencyModel` (consistency.rs:86): the commit cache and the
recorded agent id (the context is passed separately). -/
structure ConsistencyModel where
  commitCache : CommitCache
  agentId : Option AgentId
  deriving DecidableEq, Repr

/-- `ConsistencyModel::new` (consistency.rs:99). -/
def ConsistencyModel.new : ConsistencyModel :=
  { commitCache := [], agentId := none }

/-- The type-specific pending effect of a commit (consistency.rs:130-138):
derived from the crud-link and the entry variant. -/
def commitMeta (entry : Entry) (crudLink : Option Address) :
    Option ConsistencyEvent :=
  crudLink.bind (fun crud =>
    match entry with
    | .app _ _ => some (.updateEntry crud entry.address)
    | .deletion _ => some (.removeEntry crud entry.address)
    | .linkAdd linkData => some (.addLink linkData)
    | .linkRemove _ => some (.removeLink entry)
    | _ => none)

/-- The signal cached at commit time (consistency.rs:127-145): headline
`Publish(address)`, pending `Hold(address)` plus the type-specific effect,
all in group `Validators`. -/
def commitSignal (entry : Entry) (crudLink : Option Address) :
    ConsistencySignalE :=
  ConsistencySignalE.newPending (.publish entry.address) .Validators
    ([.hold entry.address] ++ (commitMeta entry crudLink).toList)

/-- `can_publish` fallback of consistency.rs:121-123: cache when the state
or the DNA is unavailable, or when the entry type is publishable. -/
def doCache (ctx : Context) (entry : Entry) : Bool :=
  ctx.state.isNone || ctx.getDna.isNone || ctx.canPublish entry.entryType

/-- `ConsistencyModel::process_action` (consistency.rs:107-199): consumes
one action, updates the model, and possibly emits a signal. -/
def processAction (ctx : Context) (m : ConsistencyModel) (action : Action) :
    ConsistencyModel × Option ConsistencySignalE :=
  match action with
  | .commit (.agentId aid) _ =>
    ({ m with agentId := some aid }, none)
  | .commit entry crudLink =>
    if doCache ctx entry then
      let cache := cacheInsert entry.address (commitSignal entry crudLink)
        m.commitCache
      ({ m with commitCache := cache }, none)
    else (m, none)
  | .publish a =>
    ({ m with commitCache := cacheDelete a m.commitCache },
     cacheLookup a m.commitCache)
  | .hold entry =>
    (m, some (ConsistencySignalE.newTerminal (.hold entry.address)))
  | .updateEntry old new =>
    (m, some (ConsistencySignalE.newTerminal (.updateEntry old new)))
  | .removeEntry old new =>
    (m, some (ConsistencySignalE.newTerminal (.removeEntry old new)))
  | .addLink l =>
    (m, some (ConsistencySignalE.newTerminal (.addLink l)))
  | .removeLink e =>
    (m, some (ConsistencySignalE.newTerminal (.removeLink e)))
  | .addPendingValidation entry =>
    (m, some (ConsistencySignalE.newPending
        (.addPendingValidation entry.address) .Source
        [.removePendingValidation entry.address]))
  | .removePendingValidation a =>
    (m, some (ConsistencySignalE.newTerminal (.removePendingValidation a)))
  | .signalZomeFunctionCall id =>
    (m, some (ConsistencySignalE.newPending (.signalZomeFunctionCall id)
        .Source [.returnZomeFunctionResult id]))
  | .returnZomeFunctionResult id =>
    (m, some (ConsistencySignalE.newTerminal (.returnZomeFunctionResult id)))
  | .otherKind => (m, none)

/-- A concrete zome call, used to instantiate theorems at concrete
inputs. -/
def czc : ZomeFnCall :=
  { zomeName := "test_zome",
    cap := { capToken := "t",
             provenance := { source := "alice", signature := "sig" } },
    fnName := "test",
    parameters := "p" }

/-- A concrete public grant covering `czc`, used to instantiate theorems
at concrete inputs. -/
def cgrant : CapTokenGrant :=
  { functions := [("test_zome", ["test"])],
    token := "t",
    capType := .Public,
    assignees := none }

/-- A concrete DNA with one zome and one function, used to instantiate
theorems at concrete inputs. -/
def cdna : Dna :=
  { name := "dna", zomes := [("test_zome", { code := "code", fns := ["test"] })] }

/-- A concrete instance state holding `cdna` and no call results. -/
def cstate : CoreState :=
  { dna := some cdna, zomeCallResult := fun _ => none }

/-- A concrete context whose agent key equals `czc`'s token and whose
chain holds no entries. -/
def cctx : Context :=
  { state := some cstate,
    agentPubSignKey := "t",
    chainLookup := fun _ => .ok none,
    canPublish := fun _ => true,
    actionChannelError := none }

/-! ## Helper lemmas -/

theorem cacheLookup_insert_self (a : Address) (s : ConsistencySignalE)
    (c : CommitCache) : cacheLookup a (cacheInsert a s c) = some s := by
  simp [cacheLookup, cacheInsert, List.lookup]

theorem cacheLookup_delete_self (a : Address) (c : CommitCache) :
    cacheLookup a (cacheDelete a c) = none := by
  induction c with
  | nil => rfl
  | cons p rest ih =>
    obtain ⟨k, v⟩ := p
    by_cases hka : k = a
    · have hb : (!(k == a)) = false := by simp [hka]
      simpa [cacheDelete, List.filter_cons, hb] using ih
    · have hb : (!(k == a)) = true := by simp [hka]
      have hak : (a == k) = false := by
        simp [beq_eq_false_iff_ne]
        exact fun h => hka h.symm
      simpa [cacheDelete, cacheLookup, List.filter_cons, hb, List.lookup,
        hak] using ih

theorem processAction_commit_nonagent (ctx : Context) (m : ConsistencyModel)
    (e : Entry) (l : Option Address) (hAgent : ∀ a, e ≠ Entry.agentId a) :
    processAction ctx m (.commit e l) =
      (if doCache ctx e then
        ({ m with commitCache :=
            cacheInsert e.address (commitSignal e l) m.commitCache }, none)
       else (m, none)) := by
  cases e with
  | agentId a => exact absurd rfl (hAgent a)
  | app t v => rfl
  | deletion v => rfl
  | linkAdd l2 => rfl
  | linkRemove v => rfl
  | capTokenGrant g => rfl
  | other t v => rfl

theorem verifyGrant_total (oracle : VerifyOracle) (g : CapTokenGrant)
    (call : ZomeFnCall) (htot : ∀ p d, ∃ b, oracle p d = .ok b)
    (hwf : g.capType = .Assigned → g.assignees.isSome = true) :
    ∃ b, verifyGrant oracle g call = some b := by
  rcases hlk : g.functions.lookup call.zomeName with _ | fns
  · exact ⟨false, by simp [verifyGrant, hlk]⟩
  · by_cases hc : call.fnName ∈ fns
    · by_cases htk : g.token = call.capToken
      · obtain ⟨b, hb⟩ := htot call.cap.provenance
          (encodeCallDataForSigning call.fnName call.parameters)
        have hvs : verifyCallSig oracle call.cap.provenance call.fnName
            call.parameters = some b := by simp [verifyCallSig, hb]
        cases b
        · exact ⟨false, by simp [verifyGrant, hlk, hc, htk, hvs]⟩
        · cases hct : g.capType
          · exact ⟨true, by simp [verifyGrant, hlk, hc, htk, hvs, hct]⟩
          · exact ⟨true, by simp [verifyGrant, hlk, hc, htk, hvs, hct]⟩
          · rcases hasg : g.assignees with _ | asg
            · rw [hasg] at hwf
              simp at hwf
              exact absurd hct hwf
            · exact ⟨asg.contains call.cap.provenance.source,
                by simp [verifyGrant, hlk, hc, htk, hvs, hct, hasg]⟩
      · exact ⟨false, by simp [verifyGrant, hlk, hc, htk]⟩
    · exact ⟨false, by simp [verifyGrant, hlk, hc]⟩

/-! ## Claim theorems -/

/-- C7: `NetworkState.initialized()` returns ok exactly when the network
handle, DNA address and agent id are all set; otherwise it returns the
network-not-initialized error.  (The source takes `&self`, so the
embedding is a pure function of the state and mutates nothing.) -/
theorem networkState_initialized_correct (s : NetworkState) :
    (s.initialized = .ok () ↔
      s.network.isSome = true ∧ s.dnaAddress.isSome = true ∧
        s.agentId.isSome = true) ∧
    (¬(s.network.isSome = true ∧ s.dnaAddress.isSome = true ∧
        s.agentId.isSome = true) →
      s.initialized = .error (.errorGeneric "Network not initialized")) := by
  unfold NetworkState.initialized
  constructor
  · constructor
    · intro h
      by_contra hc
      have : ¬(s.network.isSome && s.dnaAddress.isSome && s.agentId.isSome)
          = true := by
        simp only [Bool.and_eq_true]
        tauto
      rw [if_neg this] at h
      exact Except.noConfusion h
    · intro ⟨h1, h2, h3⟩
      simp [h1, h2, h3]
  · intro hc
    have : ¬(s.network.isSome && s.dnaAddress.isSome && s.agentId.isSome)
        = true := by
      simp only [Bool.and_eq_true]
      tauto
    rw [if_neg this]

/-- C7 witness: a state missing the agent id is rejected with the
network-not-initialized error. -/
theorem networkState_initialized_correct_witness :
    (NetworkState.mk (some ()) (some "dna") none).initialized =
      .error (.errorGeneric "Network not initialized") :=
  (networkState_initialized_correct
    (NetworkState.mk (some ()) (some "dna") none)).2 (by decide)

/-- C5: `CallResultFuture::poll` resolves with the channel error whenever
the action channel is observed closed, regardless of any stored result;
otherwise, with a state snapshot present, it returns exactly the stored
result (ready when one exists, pending when none); with no state it
resolves with the state-not-initialized error. -/
theorem pollCallResult_correct (ctx : Context) (zomeCall : ZomeFnCall) :
    (∀ err, ctx.actionChannelError = some err →
      pollCallResult ctx zomeCall = some (.error err)) ∧
    (ctx.actionChannelError = none → ∀ st, ctx.state = some st →
      pollCallResult ctx zomeCall = st.zomeCallResult zomeCall) ∧
    (ctx.actionChannelError = none → ctx.state = none →
      pollCallResult ctx zomeCall =
        some (.error (.errorGeneric "State not initialized"))) := by
  refine ⟨fun err herr => ?_, fun hch st hst => ?_, fun hch hst => ?_⟩ <;>
    simp [pollCallResult, *]

/-- C5 witness: at concrete inputs — a closed channel takes priority over
a present result; an open channel with a state returns the stored result;
an open channel without a state yields the state-not-initialized error. -/
theorem pollCallResult_correct_witness :
    (pollCallResult
        (Context.mk (some (CoreState.mk none (fun _ => some (.ok "r"))))
          "k" (fun _ => .ok none) (fun _ => true)
          (some (.errorGeneric "channel closed"))) czc =
      some (.error (.errorGeneric "channel closed"))) ∧
    (pollCallResult
        (Context.mk (some (CoreState.mk none (fun _ => some (.ok "r"))))
          "k" (fun _ => .ok none) (fun _ => true) none) czc =
      some (.ok "r")) ∧
    (pollCallResult
        (Context.mk none "k" (fun _ => .ok none) (fun _ => true) none) czc =
      some (.error (.errorGeneric "State not initialized"))) :=
  ⟨(pollCallResult_correct _ czc).1 (.errorGeneric "channel closed") rfl,
   (pollCallResult_correct _ czc).2.1 rfl
     (CoreState.mk none (fun _ => some (.ok "r"))) rfl,
   (pollCallResult_correct _ czc).2.2 rfl rfl⟩

/-- C6: when validation fails, the synchronous prefix of
`call_zome_function` returns that error having dispatched no action and
spawned no worker. -/
theorem callZomeFunctionStart_error_no_dispatch (oracle : VerifyOracle)
    (ctx : Context) (zomeCall : ZomeFnCall) (e : HolochainError)
    (h : validateCall oracle ctx zomeCall = some (.error e)) :
    callZomeFunctionStart oracle ctx zomeCall = (some (.error e), [], false) := by
  simp [callZomeFunctionStart, h]

/-- C6 witness: with no DNA in the state, the call returns
`DnaMissing` with an empty dispatch trace and no worker. -/
theorem callZomeFunctionStart_error_no_dispatch_witness :
    callZomeFunctionStart (fun _ _ => .ok true)
        (Context.mk (some (CoreState.mk none (fun _ => none))) "k"
          (fun _ => .ok none) (fun _ => true) none) czc =
      (some (.error .dnaMissing), [], false) :=
  callZomeFunctionStart_error_no_dispatch (fun _ _ => .ok true)
    (Context.mk (some (CoreState.mk none (fun _ => none))) "k"
      (fun _ => .ok none) (fun _ => true) none) czc .dnaMissing rfl

/-- C1: `verify_grant` accepts exactly when the grant lists the called
zome and function, the tokens match, the call signature verifies, and —
for Assigned grants only — the claimed source is among the assignees
(Public and Transferable grants skip that last check); moreover a token
mismatch yields `false` regardless of the later signature step. -/
theorem verify_grant_correct (oracle : VerifyOracle) (grant : CapTokenGrant)
    (call : ZomeFnCall) :
    (verifyGrant oracle grant call = some true ↔
      (∃ fns, grant.functions.lookup call.zomeName = some fns ∧
        call.fnName ∈ fns) ∧
      grant.token = call.capToken ∧
      verifyCallSig oracle call.cap.provenance call.fnName call.parameters
        = some true ∧
      (grant.capType = .Assigned →
        ∃ asg, grant.assignees = some asg ∧
          call.cap.provenance.source ∈ asg)) ∧
    (grant.token ≠ call.capToken →
      verifyGrant oracle grant call = some false) := by
  rcases hlk : grant.functions.lookup call.zomeName with _ | fns
  · exact ⟨by simp [verifyGrant, hlk], fun _ => by simp [verifyGrant, hlk]⟩
  · by_cases hc : call.fnName ∈ fns
    · by_cases htok : grant.token = call.capToken
      · refine ⟨?_, fun hne => absurd htok hne⟩
        rcases hsig : verifyCallSig oracle call.cap.provenance call.fnName
            call.parameters with _ | b
        · simp [verifyGrant, hlk, hc, htok, hsig]
        · cases b
          · simp [verifyGrant, hlk, hc, htok, hsig]
          · cases hct : grant.capType
            · simp [verifyGrant, hlk, hc, htok, hsig, hct]
            · simp [verifyGrant, hlk, hc, htok, hsig, hct]
            · rcases hasg : grant.assignees with _ | asg
              · simp [verifyGrant, hlk, hc, htok, hsig, hct, hasg]
              · by_cases hmem : call.cap.provenance.source ∈ asg <;>
                  simp [verifyGrant, hlk, hc, htok, hsig, hct, hasg, hmem]
      · exact ⟨by simp [verifyGrant, hlk, hc, htok],
          fun _ => by simp [verifyGrant, hlk, hc, htok]⟩
    · exact ⟨by simp [verifyGrant, hlk, hc],
        fun _ => by simp [verifyGrant, hlk, hc]⟩

/-- C1 witness: a Public grant for `test_zome`/`test` with matching token
and a signature the oracle accepts verifies the concrete call `czc`. -/
theorem verify_grant_correct_witness :
    verifyGrant (fun _ _ => .ok true) cgrant czc = some true ∧
    verifyGrant (fun _ _ => .ok true)
      { cgrant with token := "other" } czc = some false :=
  ⟨(verify_grant_correct (fun _ _ => .ok true) cgrant czc).1.2
      ⟨⟨["test"], rfl, by decide⟩, rfl, rfl, fun h => by cases h⟩,
   (verify_grant_correct (fun _ _ => .ok true)
      { cgrant with token := "other" } czc).2 (by decide)⟩

/-- C10: when the signature oracle returns `Err` on the encoded call
data, `verify_call_sig` aborts (the `unwrap` panic, modelled as `none`)
instead of returning `false`, and `verify_grant` propagates the abort
once the zome, function and token steps pass. -/
theorem verify_call_sig_unwrap_panic (oracle : VerifyOracle)
    (grant : CapTokenGrant) (call : ZomeFnCall) (e : String)
    (herr : oracle call.cap.provenance
      (encodeCallDataForSigning call.fnName call.parameters) = .error e)
    (hfns : ∃ fns, grant.functions.lookup call.zomeName = some fns ∧
      call.fnName ∈ fns)
    (htok : grant.token = call.capToken) :
    verifyCallSig oracle call.cap.provenance call.fnName call.parameters
      = none ∧
    verifyGrant oracle grant call = none := by
  have hv : verifyCallSig oracle call.cap.provenance call.fnName
      call.parameters = none := by
    simp [verifyCallSig, herr]
  obtain ⟨fns, hlk, hc⟩ := hfns
  exact ⟨hv, by simp [verifyGrant, hlk, hc, htok, hv]⟩

/-- C10 witness: with an oracle that always errors, the concrete call
`czc` against the matching grant `cgrant` aborts instead of returning a
boolean. -/
theorem verify_call_sig_unwrap_panic_witness :
    verifyCallSig (fun _ _ => .error "entropy") czc.cap.provenance
      czc.fnName czc.parameters = none ∧
    verifyGrant (fun _ _ => .error "entropy") cgrant czc = none :=
  verify_call_sig_unwrap_panic (fun _ _ => .error "entropy") cgrant czc
    "entropy" rfl ⟨["test"], rfl, by decide⟩ rfl

/-- C2: with DNA, zome and function resolved and a total signature
oracle, `validate_call` succeeds exactly when a grant found at the token
address verifies the call, or the self-call bypass (token equals the
agent's signing key and the signature verifies) applies; otherwise it
returns the capability-check-failed error.  A missing grant at the token
address is a `false` verification outcome, not a thrown error. -/
theorem validate_call_correct (oracle : VerifyOracle) (ctx : Context)
    (call : ZomeFnCall) (st : CoreState) (dna : Dna) (zome : Zome)
    (hst : ctx.state = some st) (hdna : st.dna = some dna)
    (hzome : dna.getZome call.zomeName = .ok zome)
    (hfn : dna.getFunctionWithZomeName call.zomeName call.fnName = .ok ())
    (htot : ∀ p d, ∃ b, oracle p d = .ok b)
    (hwf : ∀ g, getGrant ctx call.capToken = some g →
      g.capType = .Assigned → g.assignees.isSome = true) :
    (validateCall oracle ctx call = some (.ok (dna.name, zome.code)) ↔
      checkCapability oracle ctx call = some true ∨
      (isTokenTheAgent ctx call.cap = true ∧
        verifyCallSig oracle call.cap.provenance call.fnName call.parameters
          = some true)) ∧
    (¬(checkCapability oracle ctx call = some true ∨
        (isTokenTheAgent ctx call.cap = true ∧
          verifyCallSig oracle call.cap.provenance call.fnName
            call.parameters = some true)) →
      validateCall oracle ctx call = some (.error .capabilityCheckFailed)) ∧
    (checkCapability oracle ctx call = some true ↔
      ∃ g, getGrant ctx call.capToken = some g ∧
        verifyGrant oracle g call = some true) ∧
    (getGrant ctx call.capToken = none →
      checkCapability oracle ctx call = some false) := by
  have hccEx : ∃ cb, checkCapability oracle ctx call = some cb := by
    unfold checkCapability
    rcases hg : getGrant ctx call.capToken with _ | g
    · exact ⟨false, rfl⟩
    · exact verifyGrant_total oracle g call htot (hwf g hg)
  obtain ⟨cb, hcb⟩ := hccEx
  obtain ⟨b0, hb0⟩ := htot call.cap.provenance
    (encodeCallDataForSigning call.fnName call.parameters)
  have hsb : verifyCallSig oracle call.cap.provenance call.fnName
      call.parameters = some b0 := by simp [verifyCallSig, hb0]
  have hchar : checkCapability oracle ctx call = some true ↔
      ∃ g, getGrant ctx call.capToken = some g ∧
        verifyGrant oracle g call = some true := by
    constructor
    · intro h
      unfold checkCapability at h
      rcases hg : getGrant ctx call.capToken with _ | g
      · rw [hg] at h; simp at h
      · rw [hg] at h; exact ⟨g, rfl, h⟩
    · rintro ⟨g, hg, hv⟩
      unfold checkCapability
      rw [hg]
      exact hv
  have habs : getGrant ctx call.capToken = none →
      checkCapability oracle ctx call = some false := by
    intro hg
    unfold checkCapability
    rw [hg]
  refine ⟨?_, ?_, hchar, habs⟩ <;>
    cases cb <;>
    rcases hag : isTokenTheAgent ctx call.cap with _ | _ <;>
    cases b0 <;>
    simp_all [validateCall, hst, hdna, hzome, hfn, hcb, hsb, hag]

/-- C2 witness: with no grant on the chain, all resolution succeeding, and
the token equal to the agent's key, the self-call bypass admits the
concrete call; the grant absence is the boolean `some false`, not an
error. -/
theorem validate_call_correct_witness :
    validateCall (fun _ _ => .ok true) cctx czc = some (.ok ("dna", "code")) ∧
    checkCapability (fun _ _ => .ok true) cctx czc = some false := by
  have h := validate_call_correct (fun _ _ => .ok true) cctx czc cstate cdna
    (Zome.mk "code" ["test"]) rfl rfl rfl rfl
    (fun _ _ => ⟨true, rfl⟩)
    (fun g hg => by simp [getGrant, cctx, czc] at hg)
  exact ⟨h.1.mpr (Or.inr ⟨rfl, rfl⟩), h.2.2.2 rfl⟩

/-- C3: committing a publishable non-agent entry emits nothing; the
matching Publish then emits exactly the cached signal, whose headline is
`Publish(address)` and whose pending events are all in group Validators —
`[Hold(address)]` when there is no crud-link, and containing both `Hold`
and `UpdateEntry(L, address)` for an App entry committed with crud-link
`L`. -/
theorem commit_then_publish_signal (ctx : Context) (m : ConsistencyModel)
    (e : Entry) (l : Option Address)
    (hAgent : ∀ a, e ≠ Entry.agentId a)
    (hPub : ctx.canPublish e.entryType = true) :
    (processAction ctx m (.commit e l)).2 = none ∧
    (processAction ctx (processAction ctx m (.commit e l)).1
      (.publish e.address)).2 = some (commitSignal e l) ∧
    (commitSignal e l).event = .publish e.address ∧
    (∀ p ∈ (commitSignal e l).pending, p.group = .Validators) ∧
    (l = none → (commitSignal e l).pending =
      [{ event := .hold e.address, group := .Validators }]) ∧
    (∀ t v L, e = .app t v → l = some L →
      { event := ConsistencyEvent.hold e.address,
        group := ConsistencyGroup.Validators } ∈ (commitSignal e l).pending ∧
      { event := ConsistencyEvent.updateEntry L e.address,
        group := ConsistencyGroup.Validators } ∈ (commitSignal e l).pending)
    := by
  have hd : doCache ctx e = true := by simp [doCache, hPub]
  have hp := processAction_commit_nonagent ctx m e l hAgent
  refine ⟨?_, ?_, rfl, ?_, ?_, ?_⟩
  · rw [hp, if_pos hd]
  · rw [hp, if_pos hd]
    simp [processAction, cacheLookup_insert_self]
  · intro p hpmem
    simp only [commitSignal, ConsistencySignalE.newPending,
      List.mem_map] at hpmem
    obtain ⟨ev, _, rfl⟩ := hpmem
    rfl
  · intro hl
    subst hl
    simp [commitSignal, commitMeta, ConsistencySignalE.newPending]
  · intro t v L he hl
    subst he
    subst hl
    simp [commitSignal, commitMeta, ConsistencySignalE.newPending,
      Entry.address]

/-- C3 witness: at a concrete app entry with and without a crud-link, the
commit/publish pair produces the predicted signal. -/
theorem commit_then_publish_signal_witness :
    (processAction cctx ConsistencyModel.new
      (.commit (Entry.app "post" "hello") none)).2 = none ∧
    (processAction cctx (processAction cctx ConsistencyModel.new
      (.commit (Entry.app "post" "hello") none)).1
      (.publish (Entry.app "post" "hello").address)).2 =
      some (commitSignal (Entry.app "post" "hello") none) ∧
    (commitSignal (Entry.app "post" "hello") none).pending =
      [{ event := .hold (Entry.app "post" "hello").address,
         group := .Validators }] ∧
    { event := ConsistencyEvent.updateEntry "old"
        (Entry.app "post" "hello").address,
      group := ConsistencyGroup.Validators } ∈
      (commitSignal (Entry.app "post" "hello") (some "old")).pending := by
  have h1 := commit_then_publish_signal cctx ConsistencyModel.new
    (Entry.app "post" "hello") none (fun a h => by cases h) rfl
  have h2 := commit_then_publish_signal cctx ConsistencyModel.new
    (Entry.app "post" "hello") (some "old") (fun a h => by cases h) rfl
  exact ⟨h1.1, h1.2.1, h1.2.2.2.2.1 rfl,
    (h2.2.2.2.2.2 "post" "hello" "old" rfl rfl).2⟩

/-- C4: processing `Publish(a)` removes the cached signal for `a`, so an
immediately repeated `Publish(a)` emits nothing, and a `Publish(a)` with
no cached commit for `a` emits nothing. -/
theorem publish_removes_cache (ctx : Context) (m : ConsistencyModel)
    (a : Address) :
    cacheLookup a ((processAction ctx m (.publish a)).1).commitCache
      = none ∧
    (processAction ctx (processAction ctx m (.publish a)).1
      (.publish a)).2 = none ∧
    (cacheLookup a m.commitCache = none →
      (processAction ctx m (.publish a)).2 = none) := by
  refine ⟨?_, ?_, fun h => ?_⟩
  · simp [processAction, cacheLookup_delete_self]
  · simp [processAction, cacheLookup_delete_self]
  · simp [processAction, h]

/-- C4 witness: on the empty model, publishing a never-committed address
emits nothing, and the cache stays empty. -/
theorem publish_removes_cache_witness :
    cacheLookup "a" ((processAction cctx ConsistencyModel.new
      (.publish "a")).1).commitCache = none ∧
    (processAction cctx ConsistencyModel.new (.publish "a")).2 = none :=
  ⟨(publish_removes_cache cctx ConsistencyModel.new "a").1,
   (publish_removes_cache cctx ConsistencyModel.new "a").2.2 rfl⟩

/-- C8: a commit of a non-agent entry is cached whenever the state or the
DNA is unavailable, regardless of publishability; only when both are
available and `can_publish` is false is the commit left uncached, so a
later Publish of that (previously uncached) address emits nothing. -/
theorem commit_cache_best_effort (ctx : Context) (m : ConsistencyModel)
    (e : Entry) (l : Option Address)
    (hAgent : ∀ a, e ≠ Entry.agentId a) :
    (processAction ctx m (.commit e l)).2 = none ∧
    ((ctx.state.isNone || ctx.getDna.isNone) = true →
      cacheLookup e.address
        ((processAction ctx m (.commit e l)).1).commitCache
        = some (commitSignal e l)) ∧
    (ctx.state.isNone = false → ctx.getDna.isNone = false →
      ctx.canPublish e.entryType = false →
      (processAction ctx m (.commit e l)).1 = m ∧
      (cacheLookup e.address m.commitCache = none →
        (processAction ctx (processAction ctx m (.commit e l)).1
          (.publish e.address)).2 = none)) := by
  have hp := processAction_commit_nonagent ctx m e l hAgent
  refine ⟨?_, fun hun => ?_, fun h1 h2 h3 => ?_⟩
  · rw [hp]
    split <;> rfl
  · have hd : doCache ctx e = true := by
      have hun2 : ctx.state.isNone = true ∨ ctx.getDna.isNone = true := by
        simpa using hun
      rcases hun2 with h | h <;> simp [doCache, h]
    rw [hp, if_pos hd]
    exact cacheLookup_insert_self _ _ _
  · have hd : doCache ctx e = false := by simp [doCache, h1, h2, h3]
    have hm : (processAction ctx m (.commit e l)).1 = m := by
      rw [hp, if_neg]
      simp [hd]
    refine ⟨hm, fun hlk => ?_⟩
    rw [hm]
    simp [processAction, hlk]

/-- C8 witness: with no state in the context, a commit of an
unpublishable entry type is still cached; with state and DNA present and
`can_publish` false, the commit is dropped and the later publish emits
nothing. -/
theorem commit_cache_best_effort_witness :
    cacheLookup (Entry.app "post" "hello").address
      ((processAction
          (Context.mk none "t" (fun _ => .ok none) (fun _ => false) none)
          ConsistencyModel.new
          (.commit (Entry.app "post" "hello") none)).1).commitCache
      = some (commitSignal (Entry.app "post" "hello") none) ∧
    (processAction
        (Context.mk (some cstate) "t" (fun _ => .ok none) (fun _ => false)
          none)
        ConsistencyModel.new
        (.commit (Entry.app "post" "hello") none)).1
      = ConsistencyModel.new := by
  have h1 := commit_cache_best_effort
    (Context.mk none "t" (fun _ => .ok none) (fun _ => false) none)
    ConsistencyModel.new (Entry.app "post" "hello") none
    (fun a h => by cases h)
  have h2 := commit_cache_best_effort
    (Context.mk (some cstate) "t" (fun _ => .ok none) (fun _ => false) none)
    ConsistencyModel.new (Entry.app "post" "hello") none
    (fun a h => by cases h)
  exact ⟨h1.2.1 rfl, (h2.2.2 rfl rfl rfl).1⟩

/-- C9: two commits to the same address before the matching Publish —
last write wins: the Publish emits the signal constructed from the second
commit. -/
theorem second_commit_wins (ctx : Context) (m : ConsistencyModel)
    (e1 e2 : Entry) (l1 l2 : Option Address)
    (h1 : ∀ a, e1 ≠ Entry.agentId a) (h2 : ∀ a, e2 ≠ Entry.agentId a)
    (hp1 : ctx.canPublish e1.entryType = true)
    (hp2 : ctx.canPublish e2.entryType = true)
    (_haddr : e1.address = e2.address) :
    (processAction ctx (processAction ctx (processAction ctx m
      (.commit e1 l1)).1 (.commit e2 l2)).1 (.publish e2.address)).2 =
      some (commitSignal e2 l2) := by
  have hd1 : doCache ctx e1 = true := by simp [doCache, hp1]
  have hd2 : doCache ctx e2 = true := by simp [doCache, hp2]
  rw [processAction_commit_nonagent ctx m e1 l1 h1, if_pos hd1]
  rw [processAction_commit_nonagent ctx _ e2 l2 h2, if_pos hd2]
  simp [processAction, cacheLookup_insert_self]

/-- C9 witness: the same app entry committed twice, first with no
crud-link and then with crud-link `"old"`; the publish emits the signal
of the second commit. -/
theorem second_commit_wins_witness :
    (processAction cctx (processAction cctx (processAction cctx
      ConsistencyModel.new
      (.commit (Entry.app "post" "hello") none)).1
      (.commit (Entry.app "post" "hello") (some "old"))).1
      (.publish (Entry.app "post" "hello").address)).2 =
      some (commitSignal (Entry.app "post" "hello") (some "old")) :=
  second_commit_wins cctx ConsistencyModel.new
    (Entry.app "post" "hello") (Entry.app "post" "hello") none (some "old")
    (fun a h => by cases h) (fun a h => by cases h) rfl rfl rfl

end Holochain
